import Mathlib

/-!
# collectd.org/network : `ListenAndDispatch` and `dispatch`

A shallow embedding of `network/server.go`.  The operating system, the Go
`net` package, the packet decoder `Parse` and the constant
`DefaultBufferSize` are not part of that file; they are gathered in the
record `Env` and every result below holds for all of them.

Effects are made explicit as a trace of `Event`s.  The read loop never ends
by itself, so a run is observed on a finite list of read outcomes of the
socket: when that list is used up the loop is blocked in `sock.Read` and the
function has not returned.
-/

set_option autoImplicit false

/-- Go `error` values that are not nil: `tag` stands for the identity of the
value, `msg` is what its `Error()` method returns (what `%v` prints). -/
structure GoError where
  tag : Nat
  msg : String
deriving DecidableEq, Repr

namespace net

/-- The record `net.UDPAddr`: bytes of the IP, the port and the zone. -/
structure UDPAddr where
  IP : List Nat
  Port : Nat
  Zone : String
deriving DecidableEq, Repr

/-- The record `net.Interface`, as far as it is told apart from others. -/
structure Interface where
  Index : Nat
  Name : String
deriving DecidableEq, Repr

/-- A handle on a socket, `*net.UDPConn`. -/
structure UDPConn where
  fd : Nat
deriving DecidableEq, Repr

end net

namespace api

/-- The record `api.ValueList` (one decoded record). -/
structure ValueList where
  Host : String
  Plugin : String
  Time : Nat
  Values : List Int
deriving DecidableEq, Repr

/-- The interface `api.Dispatcher`: `Dispatch(vl) error`.  A sink may keep
state of its own (`σ`), so whether a call fails may depend on everything it
has seen before; `none` is the nil error. -/
structure Dispatcher (σ : Type) where
  Dispatch : σ → ValueList → Option GoError × σ

end api

namespace network

/-- A handle on a `PasswordLookup` implementation. -/
structure PasswordLookup where
  id : Nat
deriving DecidableEq, Repr

/-- The record `ParseOpts`, with the one field `ListenAndDispatch` sets;
`none` is the nil interface value. -/
structure ParseOpts where
  PasswordLookup : Option PasswordLookup
deriving DecidableEq, Repr

/-- The record `ServerOptions`.  `BufferSize` is a `uint16`. -/
structure ServerOptions where
  PasswordLookup : Option network.PasswordLookup
  Interface : String
  BufferSize : Nat
deriving DecidableEq, Repr

/-- What one call of `sock.Read(buf)` meets: a datagram with the given
payload, or an error of the socket. -/
inductive ReadOutcome where
  | datagram (payload : List Nat)
  | fail (err : GoError)
deriving DecidableEq, Repr

/-- The calls that leave `server.go`, in the order they are made. -/
inductive Event where
  | ResolveUDPAddr (address : String)
  | InterfaceByName (name : String)
  | ListenMulticastUDP (ifi : Option net.Interface) (laddr : net.UDPAddr)
  | ListenUDP (laddr : net.UDPAddr)
  | Close (sock : net.UDPConn)
  | make (size : Nat)
  | ReadOk (sock : net.UDPConn) (buf : List Nat) (n : Nat)
  | ReadErr (sock : net.UDPConn) (err : GoError)
  | Parse (b : List Nat) (popts : ParseOpts)
  | log (line : String)
  | go (valueLists : List api.ValueList)
  | Dispatch (vl : api.ValueList)
deriving DecidableEq, Repr

/-- Everything `server.go` uses and does not define: the `net` package, the
decoder `Parse` of this package (it returns a list and an error, as in Go)
and the constant `DefaultBufferSize`. -/
structure Env where
  ResolveUDPAddr : String → Except GoError net.UDPAddr
  IsMulticast : net.UDPAddr → Bool
  InterfaceByName : String → Except GoError net.Interface
  ListenMulticastUDP : Option net.Interface → net.UDPAddr → Except GoError net.UDPConn
  ListenUDP : net.UDPAddr → Except GoError net.UDPConn
  Parse : List Nat → ParseOpts → List api.ValueList × Option GoError
  DefaultBufferSize : Nat

/-- Where a run of `ListenAndDispatch` stands: blocked in `sock.Read`, or
returned with the given `error` value (`none` would be a nil error). -/
inductive Status where
  | reading
  | returned (err : Option GoError)
deriving DecidableEq, Repr

/-- The observable state of a run: the calls made so far, the sockets that
are open, and the status. -/
structure State where
  trace : List Event
  openSocks : List net.UDPConn
  status : Status
deriving DecidableEq, Repr

/-- One turn of the loop of `dispatch` (lines 75-77). -/
def dispatchOne {σ : Type} (d : api.Dispatcher σ) (s : σ) (vl : api.ValueList) :
    List Event × σ :=
  match d.Dispatch s vl with
  | (some err, s1) => ([Event.Dispatch vl, Event.log ("error while dispatching: " ++ err.msg)], s1)
  | (none, s1) => ([Event.Dispatch vl], s1)

/-- The function `dispatch` (lines 73-79): the events it causes and the state
the sink is left in. -/
def dispatch {σ : Type} : List api.ValueList → api.Dispatcher σ → σ → List Event × σ
  | [], _, s => ([], s)
  | vl :: rest, d, s =>
    let r1 := dispatchOne d s vl
    let r2 := dispatch rest d r1.2
    (r1.1 ++ r2.1, r2.2)

/-- The bytes of the buffer after `sock.Read(buf)` has received `payload`:
the first `n` bytes are overwritten, the others are kept. -/
def readInto (buf payload : List Nat) : List Nat :=
  payload.take (min payload.length buf.length) ++ buf.drop (min payload.length buf.length)

/-- The `for` loop of `ListenAndDispatch` (lines 57-70): the events it
causes and, when it returns, the error it returns; `none` when the loop is
still blocked in `sock.Read` once `reads` is used up. -/
def readLoop (env : Env) (sock : net.UDPConn) (popts : ParseOpts) :
    List Nat → List ReadOutcome → List Event × Option GoError
  | _, [] => ([], none)
  | _, ReadOutcome.fail err :: _ => ([Event.ReadErr sock err], some err)
  | buf, ReadOutcome.datagram payload :: rest =>
    let n := min payload.length buf.length
    let buf1 := readInto buf payload
    match env.Parse (buf1.take n) popts with
    | (_, some err) =>
      let r := readLoop env sock popts buf1 rest
      (Event.ReadOk sock buf1 n :: Event.Parse (buf1.take n) popts ::
        Event.log ("error while parsing: " ++ err.msg) :: r.1, r.2)
    | (valueLists, none) =>
      let r := readLoop env sock popts buf1 rest
      (Event.ReadOk sock buf1 n :: Event.Parse (buf1.take n) popts ::
        Event.go valueLists :: r.1, r.2)

/-- Lines 48-51 of `ListenAndDispatch`: the length of the receive buffer. -/
def bufferLen (env : Env) (opts : ServerOptions) : Nat :=
  if opts.BufferSize ≤ 0 then env.DefaultBufferSize else opts.BufferSize

/-- Lines 53-55 of `ListenAndDispatch`: the options every `Parse` is given. -/
def parseOpts (opts : ServerOptions) : ParseOpts :=
  { PasswordLookup := opts.PasswordLookup }

/-- Lines 43-70 of `ListenAndDispatch`: what follows the bind attempt, whose
result is `bound`; `pre` holds the events before it.  The deferred
`sock.Close()` runs when the loop returns. -/
def serve (env : Env) (reads : List ReadOutcome) (opts : ServerOptions)
    (pre : List Event) (bound : Except GoError net.UDPConn) : State :=
  match bound with
  | Except.error err => { trace := pre, openSocks := [], status := Status.returned (some err) }
  | Except.ok sock =>
    let buf := List.replicate (bufferLen env opts) 0
    match readLoop env sock (parseOpts opts) buf reads with
    | (t, none) =>
      { trace := pre ++ Event.make (bufferLen env opts) :: t, openSocks := [sock],
        status := Status.reading }
    | (t, some err) =>
      { trace := pre ++ Event.make (bufferLen env opts) :: t ++ [Event.Close sock],
        openSocks := [], status := Status.returned (some err) }

/-- The function `ListenAndDispatch` (lines 25-71), observed on the read
outcomes `reads` of the socket. -/
def ListenAndDispatch (env : Env) (reads : List ReadOutcome) (address : String)
    (opts : ServerOptions) : State :=
  match env.ResolveUDPAddr address with
  | Except.error err =>
    { trace := [Event.ResolveUDPAddr address], openSocks := [],
      status := Status.returned (some err) }
  | Except.ok laddr =>
    if env.IsMulticast laddr then
      if opts.Interface ≠ "" then
        match env.InterfaceByName opts.Interface with
        | Except.error err =>
          { trace := [Event.ResolveUDPAddr address, Event.InterfaceByName opts.Interface],
            openSocks := [], status := Status.returned (some err) }
        | Except.ok ifi =>
          serve env reads opts
            [Event.ResolveUDPAddr address, Event.InterfaceByName opts.Interface,
              Event.ListenMulticastUDP (some ifi) laddr]
            (env.ListenMulticastUDP (some ifi) laddr)
      else
        serve env reads opts
          [Event.ResolveUDPAddr address, Event.ListenMulticastUDP none laddr]
          (env.ListenMulticastUDP none laddr)
    else
      serve env reads opts [Event.ResolveUDPAddr address, Event.ListenUDP laddr]
        (env.ListenUDP laddr)

/-- Lines 26-42 of `ListenAndDispatch` on their own: address resolution,
interface lookup and the bind attempt, with the events they cause.  The
result is the socket, or the error the function returns at line 28, 36
or 44. -/
def bindSocket (env : Env) (address : String) (opts : ServerOptions) :
    List Event × Except GoError net.UDPConn :=
  match env.ResolveUDPAddr address with
  | Except.error err => ([Event.ResolveUDPAddr address], Except.error err)
  | Except.ok laddr =>
    if env.IsMulticast laddr then
      if opts.Interface ≠ "" then
        match env.InterfaceByName opts.Interface with
        | Except.error err =>
          ([Event.ResolveUDPAddr address, Event.InterfaceByName opts.Interface],
            Except.error err)
        | Except.ok ifi =>
          ([Event.ResolveUDPAddr address, Event.InterfaceByName opts.Interface,
              Event.ListenMulticastUDP (some ifi) laddr],
            env.ListenMulticastUDP (some ifi) laddr)
      else
        ([Event.ResolveUDPAddr address, Event.ListenMulticastUDP none laddr],
          env.ListenMulticastUDP none laddr)
    else
      ([Event.ResolveUDPAddr address, Event.ListenUDP laddr], env.ListenUDP laddr)

/-! ### Reading a trace -/

/-- The records passed to the sink, in order. -/
def callsOf (t : List Event) : List api.ValueList :=
  t.filterMap fun e => match e with
    | Event.Dispatch vl => some vl
    | _ => none

/-- The lines written to the log, in order. -/
def logsOf (t : List Event) : List String :=
  t.filterMap fun e => match e with
    | Event.log line => some line
    | _ => none

/-- The batches handed to a new goroutine by `go dispatch(...)`, in order. -/
def spawnedOf (t : List Event) : List (List api.ValueList) :=
  t.filterMap fun e => match e with
    | Event.go valueLists => some valueLists
    | _ => none

/-- The arguments of the calls of `Parse`, in order. -/
def parsesOf (t : List Event) : List (List Nat × ParseOpts) :=
  t.filterMap fun e => match e with
    | Event.Parse b popts => some (b, popts)
    | _ => none

/-- Whether an event is a call of `sock.Read`. -/
def Event.isRead : Event → Bool
  | Event.ReadOk _ _ _ => true
  | Event.ReadErr _ _ => true
  | _ => false

/-- What the sink answers to each record of a batch, delivered in order from
the state `s`. -/
def sinkResults {σ : Type} (d : api.Dispatcher σ) : σ → List api.ValueList → List (Option GoError)
  | _, [] => []
  | s, vl :: rest => (d.Dispatch s vl).1 :: sinkResults d (d.Dispatch s vl).2 rest

/-- The log line of a delivery: none when it succeeded. -/
def dispatchLogLine : Option GoError → Option String
  | none => none
  | some err => some ("error while dispatching: " ++ err.msg)

/-- Whether an event belongs to the read loop (lines 57-70). -/
def Event.inLoop : Event → Bool
  | Event.ReadOk _ _ _ => true
  | Event.ReadErr _ _ => true
  | Event.Parse _ _ => true
  | Event.log _ => true
  | Event.go _ => true
  | _ => false

/-- Whether an event belongs to lines 26-42: resolution, lookup, bind. -/
def Event.inSetup : Event → Bool
  | Event.ResolveUDPAddr _ => true
  | Event.InterfaceByName _ => true
  | Event.ListenMulticastUDP _ _ => true
  | Event.ListenUDP _ => true
  | _ => false

/-- The error of the first failing read, if a read fails. -/
def firstReadErr : List ReadOutcome → Option GoError
  | [] => none
  | ReadOutcome.fail err :: _ => some err
  | ReadOutcome.datagram _ :: rest => firstReadErr rest

/-- The payloads of the datagrams read before the first failing read. -/
def payloadsRead : List ReadOutcome → List (List Nat)
  | [] => []
  | ReadOutcome.fail _ :: _ => []
  | ReadOutcome.datagram payload :: rest => payload :: payloadsRead rest

/-- The read outcomes up to the first failing read, that one included. -/
def upToFirstErr : List ReadOutcome → List ReadOutcome
  | [] => []
  | ReadOutcome.fail err :: _ => [ReadOutcome.fail err]
  | ReadOutcome.datagram payload :: rest => ReadOutcome.datagram payload :: upToFirstErr rest

/-- The batch a datagram decodes to with a buffer of `size` bytes, none when
`Parse` returns an error. -/
def decodedBatch (env : Env) (popts : ParseOpts) (size : Nat) (payload : List Nat) :
    Option (List api.ValueList) :=
  match env.Parse (payload.take size) popts with
  | (valueLists, none) => some valueLists
  | (_, some _) => none

/-- The log line of a datagram with a buffer of `size` bytes, none when
`Parse` returns no error. -/
def parseLogLine (env : Env) (popts : ParseOpts) (size : Nat) (payload : List Nat) :
    Option String :=
  match env.Parse (payload.take size) popts with
  | (_, none) => none
  | (_, some err) => some ("error while parsing: " ++ err.msg)

/-! ### The program as a set of goroutines

`go dispatch(valueLists, d)` starts a goroutine that runs beside the read
loop.  A run of the whole program is an interleaving, chosen by a schedule,
of the events of the reader (the trace of `ListenAndDispatch`) and of the
turns of the loops of the delivery goroutines. -/

/-- The goroutines of a run: the one that called `ListenAndDispatch`, and
the delivery goroutines in the order they were started. -/
inductive Goroutine where
  | reader
  | task (i : Nat)
deriving DecidableEq, Repr

/-- The state of the program: what the reader has still to do, the records
each delivery goroutine has still to deliver, the state of the sink and the
events so far, each with the goroutine that made it. -/
structure System (σ : Type) where
  pending : List Event
  tasks : List (List api.ValueList)
  sink : σ
  trace : List (Goroutine × Event)

/-- The program before its first step. -/
def System.init {σ : Type} (t : List Event) (s : σ) : System σ :=
  { pending := t, tasks := [], sink := s, trace := [] }

/-- One step of the goroutine `g`: the reader makes its next event, and a
`go` starts a delivery goroutine; a delivery goroutine makes one turn of the
loop of `dispatch`.  A goroutine with nothing left to do makes no step. -/
def System.step {σ : Type} (d : api.Dispatcher σ) (sys : System σ) : Goroutine → System σ
  | Goroutine.reader =>
    match sys.pending with
    | [] => sys
    | e :: es =>
      { pending := es, tasks := sys.tasks ++ spawnedOf [e], sink := sys.sink,
        trace := sys.trace ++ [(Goroutine.reader, e)] }
  | Goroutine.task i =>
    match sys.tasks[i]? with
    | some (vl :: rest) =>
      { pending := sys.pending, tasks := sys.tasks.set i rest,
        sink := (dispatchOne d sys.sink vl).2,
        trace := sys.trace ++ (dispatchOne d sys.sink vl).1.map (fun e => (Goroutine.task i, e)) }
    | _ => sys

/-- The program after the steps of a schedule. -/
def System.run {σ : Type} (d : api.Dispatcher σ) (sys : System σ) (sched : List Goroutine) :
    System σ :=
  sched.foldl (System.step d) sys

/-- The events of one goroutine in a trace of the program. -/
def eventsBy (g : Goroutine) (t : List (Goroutine × Event)) : List Event :=
  t.filterMap fun p => if p.1 = g then some p.2 else none

/-- A sink that keeps every record it is given, in the order of the calls,
and answers each call as `answer` says (an error or nil). -/
def recordingSink (answer : api.ValueList → Option GoError) :
    api.Dispatcher (List api.ValueList) :=
  { Dispatch := fun seen vl => (answer vl, seen ++ [vl]) }

/-! ### Concrete inputs -/

namespace Example

/-- A record. -/
def vl1 : api.ValueList := { Host := "a", Plugin := "cpu", Time := 1, Values := [1] }

/-- A second record. -/
def vl2 : api.ValueList := { Host := "b", Plugin := "load", Time := 2, Values := [2] }

/-- A third record. -/
def vl3 : api.ValueList := { Host := "c", Plugin := "df", Time := 3, Values := [3] }

/-- An error of a sink. -/
def sinkErr : GoError := { tag := 7, msg := "sink is down" }

/-- A sink that refuses every record with the same error. -/
def refuseAll : api.Dispatcher Unit := { Dispatch := fun s _ => (some sinkErr, s) }

/-- A sink that counts its calls and refuses the second one. -/
def refuseSecond : api.Dispatcher Nat :=
  { Dispatch := fun s _ => (if s = 1 then some sinkErr else none, s + 1) }

/-- A multicast group address. -/
def mcastAddr : net.UDPAddr := { IP := [239, 192, 74, 66], Port := 25826, Zone := "" }

/-- A unicast address. -/
def ucastAddr : net.UDPAddr := { IP := [127, 0, 0, 1], Port := 25826, Zone := "" }

/-- An interface. -/
def eth0 : net.Interface := { Index := 2, Name := "eth0" }

/-- The error of a lookup of an interface that does not exist. -/
def noSuchInterface : GoError := { tag := 1, msg := "no such network interface" }

/-- The error of resolving a malformed address. -/
def resolveErr : GoError := { tag := 2, msg := "missing port in address" }

/-- The error of a read on a closed socket. -/
def closedErr : GoError := { tag := 3, msg := "use of closed network connection" }

/-- The error of decoding a malformed datagram. -/
def parseErr : GoError := { tag := 4, msg := "invalid data" }

/-- An environment: two addresses resolve, `eth0` is the only interface,
every bind succeeds with socket 3, a datagram decodes when its first byte
is 0, and the default buffer has 1452 bytes. -/
def env : Env where
  ResolveUDPAddr := fun address =>
    if address = "239.192.74.66:25826" then Except.ok mcastAddr
    else if address = "127.0.0.1:25826" then Except.ok ucastAddr
    else Except.error resolveErr
  IsMulticast := fun laddr => laddr.IP.head? = some 239
  InterfaceByName := fun name =>
    if name = "eth0" then Except.ok eth0 else Except.error noSuchInterface
  ListenMulticastUDP := fun _ _ => Except.ok { fd := 3 }
  ListenUDP := fun _ => Except.ok { fd := 3 }
  Parse := fun b _ =>
    if b.head? = some 0 then ([vl1, vl2, vl3], none) else ([vl1], some parseErr)
  DefaultBufferSize := 1452

/-- Options with a buffer of four bytes. -/
def opts4 : ServerOptions := { PasswordLookup := some { id := 9 }, Interface := "", BufferSize := 4 }

/-- Options that leave the buffer size at zero. -/
def opts0 : ServerOptions := { PasswordLookup := none, Interface := "", BufferSize := 0 }

/-- Options that name an interface that does not exist. -/
def optsBadIf : ServerOptions := { PasswordLookup := none, Interface := "nope0", BufferSize := 4 }

/-- Options that name the interface `eth0`. -/
def optsEth0 : ServerOptions := { PasswordLookup := none, Interface := "eth0", BufferSize := 4 }

end Example

/-! ### `dispatch` -/

theorem callsOf_append (a b : List Event) : callsOf (a ++ b) = callsOf a ++ callsOf b := by
  simp [callsOf, List.filterMap_append]

theorem logsOf_append (a b : List Event) : logsOf (a ++ b) = logsOf a ++ logsOf b := by
  simp [logsOf, List.filterMap_append]

theorem spawnedOf_append (a b : List Event) :
    spawnedOf (a ++ b) = spawnedOf a ++ spawnedOf b := by
  simp [spawnedOf, List.filterMap_append]

theorem parsesOf_append (a b : List Event) :
    parsesOf (a ++ b) = parsesOf a ++ parsesOf b := by
  simp [parsesOf, List.filterMap_append]

theorem callsOf_dispatchOne {σ : Type} (d : api.Dispatcher σ) (s : σ) (vl : api.ValueList) :
    callsOf (dispatchOne d s vl).1 = [vl] := by
  unfold dispatchOne
  rcases h : d.Dispatch s vl with ⟨_ | err, s1⟩ <;> simp [callsOf]

theorem logsOf_dispatchOne {σ : Type} (d : api.Dispatcher σ) (s : σ) (vl : api.ValueList) :
    logsOf (dispatchOne d s vl).1 = (dispatchLogLine (d.Dispatch s vl).1).toList := by
  unfold dispatchOne
  rcases h : d.Dispatch s vl with ⟨_ | err, s1⟩ <;> simp [logsOf, dispatchLogLine]

theorem dispatchOne_snd {σ : Type} (d : api.Dispatcher σ) (s : σ) (vl : api.ValueList) :
    (dispatchOne d s vl).2 = (d.Dispatch s vl).2 := by
  unfold dispatchOne
  rcases h : d.Dispatch s vl with ⟨_ | err, s1⟩ <;> simp

theorem callsOf_dispatch {σ : Type} (batch : List api.ValueList) (d : api.Dispatcher σ)
    (s : σ) : callsOf (dispatch batch d s).1 = batch := by
  induction batch generalizing s with
  | nil => rfl
  | cons vl rest ih =>
    simp only [dispatch, callsOf_append, callsOf_dispatchOne, ih, List.singleton_append]

theorem dispatch_snd {σ : Type} (batch : List api.ValueList) (d : api.Dispatcher σ) (s : σ) :
    (dispatch batch d s).2 = batch.foldl (fun st vl => (d.Dispatch st vl).2) s := by
  induction batch generalizing s with
  | nil => rfl
  | cons vl rest ih =>
    simp only [dispatch, List.foldl_cons, dispatchOne_snd]
    exact ih _

theorem foldl_recordingSink (answer : api.ValueList → Option GoError)
    (batch seen : List api.ValueList) :
    batch.foldl (fun st vl => ((recordingSink answer).Dispatch st vl).2) seen =
      seen ++ batch := by
  induction batch generalizing seen with
  | nil => simp
  | cons vl rest ih =>
    simp only [List.foldl_cons]
    rw [ih]
    simp [recordingSink]

theorem dispatch_events {σ : Type} (batch : List api.ValueList) (d : api.Dispatcher σ)
    (s : σ) :
    ∀ e ∈ (dispatch batch d s).1,
      (∃ vl, vl ∈ batch ∧ e = Event.Dispatch vl) ∨ ∃ line, e = Event.log line := by
  induction batch generalizing s with
  | nil => simp [dispatch]
  | cons vl rest ih =>
    intro e he
    simp only [dispatch, List.mem_append] at he
    rcases he with he | he
    · unfold dispatchOne at he
      rcases h : d.Dispatch s vl with ⟨_ | err, s1⟩
      · rw [h] at he
        simp only [List.mem_singleton] at he
        exact Or.inl ⟨vl, by simp, he⟩
      · rw [h] at he
        simp only [List.mem_cons, List.mem_singleton, List.not_mem_nil, or_false] at he
        rcases he with he | he
        · exact Or.inl ⟨vl, by simp, he⟩
        · exact Or.inr ⟨_, he⟩
    · rcases ih _ e he with ⟨v, hv, h1⟩ | h1
      · exact Or.inl ⟨v, List.mem_cons_of_mem _ hv, h1⟩
      · exact Or.inr h1

theorem dispatch_trace {σ : Type} (batch : List api.ValueList) (d : api.Dispatcher σ)
    (s : σ) :
    (dispatch batch d s).1 =
      ((batch.zip (sinkResults d s batch)).map
        (fun p => Event.Dispatch p.1 :: ((dispatchLogLine p.2).toList.map Event.log))).flatten := by
  induction batch generalizing s with
  | nil => rfl
  | cons vl rest ih =>
    simp only [dispatch, sinkResults, List.zip_cons_cons, List.map_cons, List.flatten_cons,
      dispatchOne_snd, ih]
    congr 1
    unfold dispatchOne
    rcases h : d.Dispatch s vl with ⟨_ | err, s1⟩ <;> simp [dispatchLogLine]

/-- C1: for every batch, every sink and every state of the sink (so also for
a sink that fails on any of the records), `dispatch` calls the sink once
for every record of the batch, in order, and stops at none: the `Dispatch`
events are exactly the batch; the sink is left in the state that those
calls, made one after the other from the state it was in, lead to; a sink
that records what it is given has, whatever it answers, been given exactly
the batch, in order; and `dispatch` does nothing else than these calls and
log lines: its events are, record by record, the call and, when the sink
answered that call with an error, one log line.  An empty batch makes no
call. -/
theorem dispatch_calls_eq_batch {σ : Type} (batch : List api.ValueList)
    (d : api.Dispatcher σ) (s : σ) :
    callsOf (dispatch batch d s).1 = batch ∧
    (dispatch batch d s).2 = batch.foldl (fun st vl => (d.Dispatch st vl).2) s ∧
    (∀ answer seen, (dispatch batch (recordingSink answer) seen).2 = seen ++ batch) ∧
    (∀ e ∈ (dispatch batch d s).1,
      (∃ vl, vl ∈ batch ∧ e = Event.Dispatch vl) ∨ ∃ line, e = Event.log line) ∧
    (dispatch batch d s).1 =
      ((batch.zip (sinkResults d s batch)).map
        (fun p => Event.Dispatch p.1 :: ((dispatchLogLine p.2).toList.map Event.log))).flatten ∧
    (sinkResults d s batch).length = batch.length ∧
    (dispatch ([] : List api.ValueList) d s).1 = [] := by
  have hlen : (sinkResults d s batch).length = batch.length := by
    induction batch generalizing s with
    | nil => rfl
    | cons vl rest ih => simp [sinkResults, ih]
  refine ⟨callsOf_dispatch batch d s, dispatch_snd batch d s, ?_, dispatch_events batch d s,
    dispatch_trace batch d s, hlen, rfl⟩
  · intro answer seen
    rw [dispatch_snd, foldl_recordingSink]

/-- Scenario D of the specification: the second of three records is refused,
the first and the third are still delivered and one line is logged. -/
theorem dispatch_scenario_D :
    (dispatch [Example.vl1, Example.vl2, Example.vl3] Example.refuseSecond 0).1 =
      [Event.Dispatch Example.vl1, Event.Dispatch Example.vl2,
        Event.log "error while dispatching: sink is down", Event.Dispatch Example.vl3] := by
  decide

/-- C9, as the code has it: `dispatch` writes one log line for every record
whose delivery failed and none for a record that was delivered, in order; the
line is the fixed text followed by the text of the error the sink returned,
and nothing of the record enters it. -/
theorem dispatch_logs_eq {σ : Type} (batch : List api.ValueList)
    (d : api.Dispatcher σ) (s : σ) :
    logsOf (dispatch batch d s).1 = (sinkResults d s batch).filterMap dispatchLogLine := by
  induction batch generalizing s with
  | nil => rfl
  | cons vl rest ih =>
    simp only [dispatch, logsOf_append, logsOf_dispatchOne, ih, sinkResults, dispatchOne_snd]
    cases h : (d.Dispatch s vl).1 <;> simp [List.filterMap_cons, dispatchLogLine]

/-- C9 as stated fails: two different records refused with the same error
leave the same log line, so the line does not tell which record failed. -/
theorem dispatch_log_hides_record :
    Example.vl1 ≠ Example.vl2 ∧
    logsOf (dispatch [Example.vl1] Example.refuseAll ()).1 =
      ["error while dispatching: sink is down"] ∧
    logsOf (dispatch [Example.vl2] Example.refuseAll ()).1 =
      ["error while dispatching: sink is down"] := by
  decide

/-! ### The read loop -/

theorem readInto_length (buf payload : List Nat) :
    (readInto buf payload).length = buf.length := by
  simp only [readInto, List.length_append, List.length_take, List.length_drop]
  omega

theorem readInto_take (buf payload : List Nat) :
    (readInto buf payload).take (min payload.length buf.length) = payload.take buf.length := by
  unfold readInto
  rw [List.take_append_of_le_length (by simp)]
  rw [List.take_take]
  by_cases h : payload.length ≤ buf.length
  · rw [List.take_of_length_le (by omega), List.take_of_length_le h]
  · congr 1
    omega

theorem ListenAndDispatch_eq_serve (env : Env) (reads : List ReadOutcome) (address : String)
    (opts : ServerOptions) :
    ListenAndDispatch env reads address opts =
      serve env reads opts (bindSocket env address opts).1 (bindSocket env address opts).2 := by
  unfold ListenAndDispatch bindSocket
  split
  · rfl
  · split
    · split
      · split <;> rfl
      · rfl
    · rfl

theorem readLoop_result (env : Env) (sock : net.UDPConn) (popts : ParseOpts)
    (buf : List Nat) (reads : List ReadOutcome) :
    (readLoop env sock popts buf reads).2 = firstReadErr reads := by
  induction reads generalizing buf with
  | nil => rfl
  | cons r rest ih =>
    cases r with
    | fail err => rfl
    | datagram payload =>
      simp only [readLoop, firstReadErr]
      split <;> exact ih _

theorem readLoop_upToFirstErr (env : Env) (sock : net.UDPConn) (popts : ParseOpts)
    (buf : List Nat) (reads : List ReadOutcome) :
    readLoop env sock popts buf (upToFirstErr reads) = readLoop env sock popts buf reads := by
  induction reads generalizing buf with
  | nil => rfl
  | cons r rest ih =>
    cases r with
    | fail err => rfl
    | datagram payload =>
      simp only [readLoop, upToFirstErr]
      split <;> simp [ih]

theorem readLoop_inLoop (env : Env) (sock : net.UDPConn) (popts : ParseOpts)
    (buf : List Nat) (reads : List ReadOutcome) :
    ∀ e ∈ (readLoop env sock popts buf reads).1, e.inLoop = true := by
  induction reads generalizing buf with
  | nil => simp [readLoop]
  | cons r rest ih =>
    cases r with
    | fail err => simp [readLoop, Event.inLoop]
    | datagram payload =>
      simp only [readLoop]
      split <;> simp [Event.inLoop] <;> exact ih _

theorem readLoop_calls (env : Env) (sock : net.UDPConn) (popts : ParseOpts)
    (buf : List Nat) (reads : List ReadOutcome) :
    callsOf (readLoop env sock popts buf reads).1 = [] := by
  induction reads generalizing buf with
  | nil => rfl
  | cons r rest ih =>
    cases r with
    | fail err => rfl
    | datagram payload =>
      simp only [readLoop]
      split <;> simpa [callsOf] using ih _

theorem readLoop_spawned (env : Env) (sock : net.UDPConn) (popts : ParseOpts)
    (buf : List Nat) (reads : List ReadOutcome) :
    spawnedOf (readLoop env sock popts buf reads).1 =
      (payloadsRead reads).filterMap (decodedBatch env popts buf.length) := by
  induction reads generalizing buf with
  | nil => rfl
  | cons r rest ih =>
    cases r with
    | fail err => rfl
    | datagram payload =>
      have ih1 := ih (readInto buf payload)
      rw [readInto_length] at ih1
      simp only [readLoop, payloadsRead, List.filterMap_cons, decodedBatch, readInto_take]
      rcases h : env.Parse (payload.take buf.length) popts with ⟨vls, _ | err⟩
      · simpa [spawnedOf] using ih1
      · simpa [spawnedOf] using ih1

theorem readLoop_logs (env : Env) (sock : net.UDPConn) (popts : ParseOpts)
    (buf : List Nat) (reads : List ReadOutcome) :
    logsOf (readLoop env sock popts buf reads).1 =
      (payloadsRead reads).filterMap (parseLogLine env popts buf.length) := by
  induction reads generalizing buf with
  | nil => rfl
  | cons r rest ih =>
    cases r with
    | fail err => rfl
    | datagram payload =>
      have ih1 := ih (readInto buf payload)
      rw [readInto_length] at ih1
      simp only [readLoop, payloadsRead, List.filterMap_cons, parseLogLine, readInto_take]
      rcases h : env.Parse (payload.take buf.length) popts with ⟨vls, _ | err⟩
      · simpa [logsOf] using ih1
      · simpa [logsOf] using ih1

theorem readLoop_parses (env : Env) (sock : net.UDPConn) (popts : ParseOpts)
    (buf : List Nat) (reads : List ReadOutcome) :
    parsesOf (readLoop env sock popts buf reads).1 =
      (payloadsRead reads).map (fun payload => (payload.take buf.length, popts)) := by
  induction reads generalizing buf with
  | nil => rfl
  | cons r rest ih =>
    cases r with
    | fail err => rfl
    | datagram payload =>
      have ih1 := ih (readInto buf payload)
      rw [readInto_length] at ih1
      simp only [readLoop, payloadsRead, List.map_cons, readInto_take]
      rcases h : env.Parse (payload.take buf.length) popts with ⟨vls, _ | err⟩
      · simpa [parsesOf] using ih1
      · simpa [parsesOf] using ih1

theorem readLoop_reads_count (env : Env) (sock : net.UDPConn) (popts : ParseOpts)
    (buf : List Nat) (reads : List ReadOutcome) :
    ((readLoop env sock popts buf reads).1.filter Event.isRead).length =
      (upToFirstErr reads).length := by
  induction reads generalizing buf with
  | nil => rfl
  | cons r rest ih =>
    cases r with
    | fail err => rfl
    | datagram payload =>
      simp only [readLoop, upToFirstErr]
      split <;> simpa [Event.isRead, List.filter_cons] using ih _

theorem readLoop_after_ReadOk (env : Env) (sock : net.UDPConn) (popts : ParseOpts)
    (buf : List Nat) (reads : List ReadOutcome) (pre post : List Event)
    (s : net.UDPConn) (b : List Nat) (n : Nat)
    (h : (readLoop env sock popts buf reads).1 = pre ++ Event.ReadOk s b n :: post) :
    s = sock ∧ b.length = buf.length ∧ n ≤ b.length ∧
      ∃ post1, post = Event.Parse (b.take n) popts :: post1 := by
  induction reads generalizing buf pre with
  | nil => simp [readLoop] at h
  | cons r rest ih =>
    cases r with
    | fail err =>
      rcases pre with _ | ⟨a, pre1⟩ <;> simp [readLoop] at h
    | datagram payload =>
      simp only [readLoop] at h
      split at h
      all_goals
        rcases pre with _ | ⟨a1, _ | ⟨a2, _ | ⟨a3, pre1⟩⟩⟩
        · simp only [List.nil_append, List.cons.injEq, Event.ReadOk.injEq] at h
          obtain ⟨⟨h1, h2, h3⟩, h4⟩ := h
          subst h1 h2 h3
          refine ⟨rfl, readInto_length _ _, ?_, ⟨_, h4.symm⟩⟩
          rw [readInto_length]
          exact Nat.min_le_right _ _
        · simp at h
        · simp at h
        · simp only [List.cons_append, List.cons.injEq] at h
          have := ih (readInto buf payload) pre1 h.2.2.2
          rw [readInto_length] at this
          exact this

theorem readLoop_after_go (env : Env) (sock : net.UDPConn) (popts : ParseOpts)
    (buf : List Nat) (reads : List ReadOutcome) (pre post : List Event)
    (vls : List api.ValueList)
    (h : (readLoop env sock popts buf reads).1 = pre ++ Event.go vls :: post) :
    (post = [] ∧ (readLoop env sock popts buf reads).2 = none) ∨
      ∃ e post1, post = e :: post1 ∧ e.isRead = true := by
  induction reads generalizing buf pre with
  | nil => simp [readLoop] at h
  | cons r rest ih =>
    cases r with
    | fail err =>
      rcases pre with _ | ⟨a, pre1⟩ <;> simp [readLoop] at h
    | datagram payload =>
      simp only [readLoop] at h ⊢
      split at h
      all_goals
        rcases pre with _ | ⟨a1, _ | ⟨a2, _ | ⟨a3, pre1⟩⟩⟩
        · simp at h
        · simp at h
        · simp only [List.cons_append, List.nil_append, List.cons.injEq] at h
          first
            | (exfalso; simpa using h.2.2.1)
            | (obtain ⟨-, -, -, h4⟩ := h
               rename_i hparse
               simp only [hparse]
               rcases rest with _ | ⟨r1, rest1⟩
               · left
                 rw [← h4]
                 simp [readLoop]
               · right
                 rw [← h4]
                 cases r1 with
                 | fail err1 => exact ⟨_, _, rfl, rfl⟩
                 | datagram p1 =>
                   simp only [readLoop]
                   split <;> exact ⟨_, _, rfl, rfl⟩)
        · simp only [List.cons_append, List.cons.injEq] at h
          rename_i hparse
          simp only [hparse]
          exact ih (readInto buf payload) pre1 h.2.2.2

/-! ### `ListenAndDispatch` -/

theorem bindSocket_inSetup (env : Env) (address : String) (opts : ServerOptions) :
    ∀ e ∈ (bindSocket env address opts).1, e.inSetup = true := by
  unfold bindSocket
  split
  · simp [Event.inSetup]
  · split
    · split
      · split <;> simp [Event.inSetup]
      · simp [Event.inSetup]
    · simp [Event.inSetup]

theorem serve_error (env : Env) (reads : List ReadOutcome) (opts : ServerOptions)
    (pre : List Event) (err : GoError) :
    serve env reads opts pre (Except.error err) =
      { trace := pre, openSocks := [], status := Status.returned (some err) } := rfl

theorem serve_ok (env : Env) (reads : List ReadOutcome) (opts : ServerOptions)
    (pre : List Event) (sock : net.UDPConn) :
    serve env reads opts pre (Except.ok sock) =
      match firstReadErr reads with
      | none =>
        { trace := pre ++ Event.make (bufferLen env opts) ::
            (readLoop env sock (parseOpts opts) (List.replicate (bufferLen env opts) 0) reads).1,
          openSocks := [sock], status := Status.reading }
      | some err =>
        { trace := pre ++ Event.make (bufferLen env opts) ::
            (readLoop env sock (parseOpts opts) (List.replicate (bufferLen env opts) 0) reads).1
            ++ [Event.Close sock],
          openSocks := [], status := Status.returned (some err) } := by
  have h := readLoop_result env sock (parseOpts opts) (List.replicate (bufferLen env opts) 0) reads
  unfold serve
  simp only
  rcases hr : readLoop env sock (parseOpts opts) (List.replicate (bufferLen env opts) 0) reads
    with ⟨t, _ | err⟩
  · rw [hr] at h
    simp only at h
    rw [← h]
  · rw [hr] at h
    simp only at h
    rw [← h]

theorem serve_ok_trace (env : Env) (reads : List ReadOutcome) (opts : ServerOptions)
    (pre : List Event) (sock : net.UDPConn) :
    (serve env reads opts pre (Except.ok sock)).trace =
      pre ++ Event.make (bufferLen env opts) ::
        (readLoop env sock (parseOpts opts) (List.replicate (bufferLen env opts) 0) reads).1
        ++ (match firstReadErr reads with
            | none => []
            | some _ => [Event.Close sock]) := by
  rw [serve_ok]
  cases firstReadErr reads <;> simp

theorem serve_ok_status (env : Env) (reads : List ReadOutcome) (opts : ServerOptions)
    (pre : List Event) (sock : net.UDPConn) :
    (serve env reads opts pre (Except.ok sock)).status =
      match firstReadErr reads with
      | none => Status.reading
      | some err => Status.returned (some err) := by
  rw [serve_ok]
  cases firstReadErr reads <;> rfl

theorem serve_ok_openSocks (env : Env) (reads : List ReadOutcome) (opts : ServerOptions)
    (pre : List Event) (sock : net.UDPConn) :
    (serve env reads opts pre (Except.ok sock)).openSocks =
      match firstReadErr reads with
      | none => [sock]
      | some _ => [] := by
  rw [serve_ok]
  cases firstReadErr reads <;> rfl

/-- C5: once the bind has succeeded, the receive buffer has
`DefaultBufferSize` bytes when `BufferSize` is 0 and `BufferSize` bytes
otherwise: that is the size asked of `make`, the only one, and the length
of the buffer at every read.  With a positive `DefaultBufferSize` the buffer
is never empty, and sizing it returns no error: the function then blocks in
its first read. -/
theorem buffer_length_from_options (env : Env) (reads : List ReadOutcome) (address : String)
    (opts : ServerOptions) (sock : net.UDPConn)
    (hD : 0 < env.DefaultBufferSize)
    (hb : (bindSocket env address opts).2 = Except.ok sock) :
    (opts.BufferSize = 0 → bufferLen env opts = env.DefaultBufferSize) ∧
    (opts.BufferSize ≠ 0 → bufferLen env opts = opts.BufferSize) ∧
    0 < bufferLen env opts ∧
    (∃ t, (ListenAndDispatch env reads address opts).trace =
        (bindSocket env address opts).1 ++ Event.make (bufferLen env opts) :: t) ∧
    (∀ size, Event.make size ∈ (ListenAndDispatch env reads address opts).trace →
        size = bufferLen env opts) ∧
    (∀ s buf n, Event.ReadOk s buf n ∈ (ListenAndDispatch env reads address opts).trace →
        buf.length = bufferLen env opts) ∧
    (ListenAndDispatch env [] address opts).status = Status.reading := by
  have hlen0 : opts.BufferSize = 0 → bufferLen env opts = env.DefaultBufferSize := by
    intro h
    simp [bufferLen, h]
  have hlen1 : opts.BufferSize ≠ 0 → bufferLen env opts = opts.BufferSize := by
    intro h
    have : ¬ opts.BufferSize ≤ 0 := by omega
    simp [bufferLen, this]
  have hpos : 0 < bufferLen env opts := by
    by_cases h : opts.BufferSize = 0
    · rw [hlen0 h]
      exact hD
    · rw [hlen1 h]
      omega
  have hsetup := bindSocket_inSetup env address opts
  refine ⟨hlen0, hlen1, hpos, ?_, ?_, ?_, ?_⟩
  · rw [ListenAndDispatch_eq_serve, hb, serve_ok_trace]
    exact ⟨_, List.append_assoc _ _ _⟩
  · intro size hmem
    rw [ListenAndDispatch_eq_serve, hb, serve_ok_trace] at hmem
    simp only [List.mem_append, List.mem_cons] at hmem
    rcases hmem with (h | h | h) | h
    · have := hsetup _ h
      simp [Event.inSetup] at this
    · simpa using h
    · have := readLoop_inLoop _ _ _ _ _ _ h
      simp [Event.inLoop] at this
    · cases hf : firstReadErr reads <;> rw [hf] at h <;> simp at h
  · intro s buf n hmem
    rw [ListenAndDispatch_eq_serve, hb, serve_ok_trace] at hmem
    simp only [List.mem_append, List.mem_cons] at hmem
    rcases hmem with (h | h | h) | h
    · have := hsetup _ h
      simp [Event.inSetup] at this
    · simp at h
    · obtain ⟨pre, post, hsplit⟩ := List.append_of_mem h
      have := (readLoop_after_ReadOk _ _ _ _ _ _ _ _ _ _ hsplit).2.1
      simpa using this
    · cases hf : firstReadErr reads <;> rw [hf] at h <;> simp at h
  · rw [ListenAndDispatch_eq_serve, hb, serve_ok_status]
    rfl

/-- C5 at a concrete input: a unicast bind with `BufferSize` 0 and a default
of 1452 bytes. -/
theorem buffer_length_from_options_witness :
    bufferLen Example.env Example.opts0 = 1452 ∧
    (ListenAndDispatch Example.env [] "127.0.0.1:25826" Example.opts0).status =
      Status.reading :=
  have h := buffer_length_from_options Example.env [] "127.0.0.1:25826" Example.opts0
    { fd := 3 } (by decide) rfl
  ⟨h.1 rfl, h.2.2.2.2.2.2⟩

theorem serve_trace_mem (env : Env) (reads : List ReadOutcome) (opts : ServerOptions)
    (pre : List Event) (bound : Except GoError net.UDPConn) :
    ∀ e ∈ (serve env reads opts pre bound).trace, e ∈ pre ∨ e.inSetup = false := by
  intro e hmem
  cases bound with
  | error err => exact Or.inl hmem
  | ok sock =>
    rw [serve_ok_trace] at hmem
    simp only [List.mem_append, List.mem_cons] at hmem
    rcases hmem with (h | h | h) | h
    · exact Or.inl h
    · right
      rw [h]
      rfl
    · right
      have := readLoop_inLoop _ _ _ _ _ _ h
      cases e <;> simp_all [Event.inLoop, Event.inSetup]
    · right
      cases hf : firstReadErr reads <;> rw [hf] at h <;> simp at h
      rw [h]
      rfl

/-- C7: when the listen address resolves to an address that is not
multicast, `Interface` has no effect: a run with any other interface name
(one that does not exist included) is the same run, event for event and
with the same result; no interface is looked up, no multicast bind is
made, and the bind is the plain `ListenUDP` on the resolved address. -/
theorem unicast_ignores_Interface (env : Env) (reads : List ReadOutcome) (address : String)
    (opts : ServerOptions) (name : String) (laddr : net.UDPAddr)
    (hr : env.ResolveUDPAddr address = Except.ok laddr)
    (hm : env.IsMulticast laddr = false) :
    ListenAndDispatch env reads address { opts with Interface := name } =
      ListenAndDispatch env reads address opts ∧
    ListenAndDispatch env reads address opts =
      serve env reads opts [Event.ResolveUDPAddr address, Event.ListenUDP laddr]
        (env.ListenUDP laddr) ∧
    (∀ n, Event.InterfaceByName n ∉ (ListenAndDispatch env reads address opts).trace) ∧
    (∀ ifi a, Event.ListenMulticastUDP ifi a ∉
        (ListenAndDispatch env reads address opts).trace) := by
  have key : ∀ o : ServerOptions, ListenAndDispatch env reads address o =
      serve env reads o [Event.ResolveUDPAddr address, Event.ListenUDP laddr]
        (env.ListenUDP laddr) := by
    intro o
    unfold ListenAndDispatch
    rw [hr]
    simp [hm]
  refine ⟨?_, key opts, ?_, ?_⟩
  · rw [key, key]
    rfl
  · intro n hmem
    rw [key] at hmem
    rcases serve_trace_mem _ _ _ _ _ _ hmem with h | h
    · simp at h
    · simp [Event.inSetup] at h
  · intro ifi a hmem
    rw [key] at hmem
    rcases serve_trace_mem _ _ _ _ _ _ hmem with h | h
    · simp at h
    · simp [Event.inSetup] at h

/-- C7 at a concrete input: on 127.0.0.1 the name of an interface that does
not exist changes nothing, and the function blocks in its first read. -/
theorem unicast_ignores_Interface_witness :
    ListenAndDispatch Example.env [] "127.0.0.1:25826"
        { Example.opts4 with Interface := "nope0" } =
      ListenAndDispatch Example.env [] "127.0.0.1:25826" Example.opts4 ∧
    (ListenAndDispatch Example.env [] "127.0.0.1:25826"
        { Example.opts4 with Interface := "nope0" }).status = Status.reading :=
  have h := unicast_ignores_Interface Example.env [] "127.0.0.1:25826" Example.opts4 "nope0"
    Example.ucastAddr rfl rfl
  ⟨h.1, by decide⟩

/-- C8: when the listen address resolves to a multicast address, no plain
`ListenUDP` is made.  With an empty `Interface` no interface is looked up and
the bind is `ListenMulticastUDP` with the nil interface on that address, so
the bind succeeds whenever that join succeeds; with a name, the lookup comes
first, its error is returned with no bind attempt, and on success the bind
is `ListenMulticastUDP` with exactly the interface found. -/
theorem multicast_joins_group (env : Env) (reads : List ReadOutcome) (address : String)
    (opts : ServerOptions) (laddr : net.UDPAddr)
    (hr : env.ResolveUDPAddr address = Except.ok laddr)
    (hm : env.IsMulticast laddr = true) :
    (∀ a, Event.ListenUDP a ∉ (ListenAndDispatch env reads address opts).trace) ∧
    (opts.Interface = "" →
      (∀ n, Event.InterfaceByName n ∉ (ListenAndDispatch env reads address opts).trace) ∧
      ListenAndDispatch env reads address opts =
        serve env reads opts
          [Event.ResolveUDPAddr address, Event.ListenMulticastUDP none laddr]
          (env.ListenMulticastUDP none laddr) ∧
      ∀ sock, env.ListenMulticastUDP none laddr = Except.ok sock →
        (ListenAndDispatch env [] address opts).status = Status.reading ∧
        (ListenAndDispatch env [] address opts).openSocks = [sock]) ∧
    (opts.Interface ≠ "" →
      (∀ err, env.InterfaceByName opts.Interface = Except.error err →
        ListenAndDispatch env reads address opts =
          { trace := [Event.ResolveUDPAddr address, Event.InterfaceByName opts.Interface],
            openSocks := [], status := Status.returned (some err) }) ∧
      (∀ ifi, env.InterfaceByName opts.Interface = Except.ok ifi →
        ListenAndDispatch env reads address opts =
          serve env reads opts
            [Event.ResolveUDPAddr address, Event.InterfaceByName opts.Interface,
              Event.ListenMulticastUDP (some ifi) laddr]
            (env.ListenMulticastUDP (some ifi) laddr))) := by
  have hnone : ∀ rs, opts.Interface = "" → ListenAndDispatch env rs address opts =
      serve env rs opts
        [Event.ResolveUDPAddr address, Event.ListenMulticastUDP none laddr]
        (env.ListenMulticastUDP none laddr) := by
    intro rs h
    unfold ListenAndDispatch
    rw [hr]
    simp [hm, h]
  have herr : ∀ err, opts.Interface ≠ "" →
      env.InterfaceByName opts.Interface = Except.error err →
      ListenAndDispatch env reads address opts =
        { trace := [Event.ResolveUDPAddr address, Event.InterfaceByName opts.Interface],
          openSocks := [], status := Status.returned (some err) } := by
    intro err h hl
    unfold ListenAndDispatch
    rw [hr]
    simp [hm, h, hl]
  have hok : ∀ ifi, opts.Interface ≠ "" →
      env.InterfaceByName opts.Interface = Except.ok ifi →
      ListenAndDispatch env reads address opts =
        serve env reads opts
          [Event.ResolveUDPAddr address, Event.InterfaceByName opts.Interface,
            Event.ListenMulticastUDP (some ifi) laddr]
          (env.ListenMulticastUDP (some ifi) laddr) := by
    intro ifi h hl
    unfold ListenAndDispatch
    rw [hr]
    simp [hm, h, hl]
  refine ⟨?_, ?_, ?_⟩
  · intro a hmem
    by_cases h : opts.Interface = ""
    · rw [hnone reads h] at hmem
      rcases serve_trace_mem _ _ _ _ _ _ hmem with h1 | h1
      · simp at h1
      · simp [Event.inSetup] at h1
    · cases hl : env.InterfaceByName opts.Interface with
      | error err =>
        rw [herr err h hl] at hmem
        simp at hmem
      | ok ifi =>
        rw [hok ifi h hl] at hmem
        rcases serve_trace_mem _ _ _ _ _ _ hmem with h1 | h1
        · simp at h1
        · simp [Event.inSetup] at h1
  · intro h
    refine ⟨?_, hnone reads h, ?_⟩
    · intro n hmem
      rw [hnone reads h] at hmem
      rcases serve_trace_mem _ _ _ _ _ _ hmem with h1 | h1
      · simp at h1
      · simp [Event.inSetup] at h1
    · intro sock hs
      rw [hnone [] h, hs, serve_ok_status, serve_ok_openSocks]
      exact ⟨rfl, rfl⟩
  · intro h
    exact ⟨fun err hl => herr err h hl, fun ifi hl => hok ifi h hl⟩

/-- C8 at a concrete input: the group 239.192.74.66 with the interface
`nope0`, which does not exist: the error of the lookup is returned and no
bind is attempted. -/
theorem multicast_joins_group_witness :
    ListenAndDispatch Example.env [] "239.192.74.66:25826" Example.optsBadIf =
      { trace := [Event.ResolveUDPAddr "239.192.74.66:25826", Event.InterfaceByName "nope0"],
        openSocks := [], status := Status.returned (some Example.noSuchInterface) } :=
  (multicast_joins_group Example.env [] "239.192.74.66:25826" Example.optsBadIf
    Example.mcastAddr rfl rfl).2.2 (by decide) |>.1 Example.noSuchInterface rfl

/-- C6: a run that has returned has no socket open.  When the bind
succeeded, the socket is open as long as the function is blocked in a read
and `Close` is the last thing the function does before it returns (so also
when it returns the error of a read).  When resolution, lookup or bind
failed, no socket was opened, none is open and no read was attempted. -/
theorem socket_released_on_return (env : Env) (reads : List ReadOutcome) (address : String)
    (opts : ServerOptions) :
    (∀ r, (ListenAndDispatch env reads address opts).status = Status.returned r →
      (ListenAndDispatch env reads address opts).openSocks = []) ∧
    (∀ sock, (bindSocket env address opts).2 = Except.ok sock →
      ((ListenAndDispatch env reads address opts).status = Status.reading →
        (ListenAndDispatch env reads address opts).openSocks = [sock] ∧
        ∀ s, Event.Close s ∉ (ListenAndDispatch env reads address opts).trace) ∧
      (∀ r, (ListenAndDispatch env reads address opts).status = Status.returned r →
        (ListenAndDispatch env reads address opts).trace.getLast? = some (Event.Close sock) ∧
        ∃ err, firstReadErr reads = some err ∧ r = some err)) ∧
    (∀ err, (bindSocket env address opts).2 = Except.error err →
      (ListenAndDispatch env reads address opts).status = Status.returned (some err) ∧
      (ListenAndDispatch env reads address opts).openSocks = [] ∧
      (ListenAndDispatch env reads address opts).trace = (bindSocket env address opts).1 ∧
      ∀ e ∈ (ListenAndDispatch env reads address opts).trace,
        e.isRead = false ∧ e.inLoop = false ∧ ∀ s, e ≠ Event.Close s) := by
  have hsetup := bindSocket_inSetup env address opts
  refine ⟨?_, ?_, ?_⟩
  · intro r hst
    rw [ListenAndDispatch_eq_serve] at hst ⊢
    cases hb : (bindSocket env address opts).2 with
    | error err => rfl
    | ok sock =>
      rw [hb, serve_ok_status] at hst
      rw [serve_ok_openSocks]
      cases hf : firstReadErr reads with
      | none => rw [hf] at hst; simp at hst
      | some err => rfl
  · intro sock hb
    rw [ListenAndDispatch_eq_serve, hb, serve_ok_status, serve_ok_openSocks, serve_ok_trace]
    cases hf : firstReadErr reads with
    | none =>
      refine ⟨fun _ => ⟨rfl, ?_⟩, ?_⟩
      · intro s hmem
        simp only [List.append_nil, List.mem_append, List.mem_cons] at hmem
        rcases hmem with h | h | h
        · have := hsetup _ h
          simp [Event.inSetup] at this
        · simp at h
        · have := readLoop_inLoop _ _ _ _ _ _ h
          simp [Event.inLoop] at this
      · intro r hst
        simp at hst
    | some err =>
      refine ⟨fun hst => ?_, ?_⟩
      · simp at hst
      · intro r hst
        refine ⟨List.getLast?_concat _, err, rfl, ?_⟩
        simp only [Status.returned.injEq] at hst
        exact hst.symm
  · intro err hb
    rw [ListenAndDispatch_eq_serve, hb]
    refine ⟨rfl, rfl, rfl, ?_⟩
    intro e hmem
    have := hsetup e hmem
    cases e <;> simp_all [Event.inSetup, Event.isRead, Event.inLoop]

/-- C6 at a concrete input: two datagrams, then the socket is closed under
the blocked read: the error of the read is returned, the last event is the
`Close` of the socket, and no socket is open. -/
theorem socket_released_on_return_witness :
    (ListenAndDispatch Example.env
        [ReadOutcome.datagram [0, 1], ReadOutcome.datagram [1],
          ReadOutcome.fail Example.closedErr]
        "127.0.0.1:25826" Example.opts4).openSocks = [] ∧
    (ListenAndDispatch Example.env
        [ReadOutcome.datagram [0, 1], ReadOutcome.datagram [1],
          ReadOutcome.fail Example.closedErr]
        "127.0.0.1:25826" Example.opts4).trace.getLast? = some (Event.Close { fd := 3 }) :=
  have h := socket_released_on_return Example.env
    [ReadOutcome.datagram [0, 1], ReadOutcome.datagram [1], ReadOutcome.fail Example.closedErr]
    "127.0.0.1:25826" Example.opts4
  ⟨h.1 (some Example.closedErr) (by decide),
    (h.2.1 { fd := 3 } rfl |>.2 (some Example.closedErr) (by decide)).1⟩

theorem split_middle {α : Type} (xs ys zs pre post : List α) (e : α)
    (h : xs ++ ys ++ zs = pre ++ e :: post) (hx : e ∉ xs) (hz : e ∉ zs) :
    ∃ pre1 post1, ys = pre1 ++ e :: post1 ∧ pre = xs ++ pre1 ∧ post = post1 ++ zs := by
  induction xs generalizing pre with
  | nil =>
    simp only [List.nil_append] at h ⊢
    induction ys generalizing pre with
    | nil =>
      exfalso
      apply hz
      simp only [List.nil_append] at h
      rw [h]
      simp
    | cons y ys ih =>
      rcases pre with _ | ⟨p, pre1⟩
      · simp only [List.cons_append, List.nil_append, List.cons.injEq] at h
        obtain ⟨rfl, h2⟩ := h
        exact ⟨[], ys, rfl, rfl, h2.symm⟩
      · simp only [List.cons_append, List.cons.injEq] at h
        obtain ⟨rfl, h2⟩ := h
        obtain ⟨a, b, h3, h4, h5⟩ := ih pre1 h2
        exact ⟨y :: a, b, by simp [h3], by simp [h4], h5⟩
  | cons x xs ih =>
    rcases pre with _ | ⟨p, pre1⟩
    · simp only [List.cons_append, List.nil_append, List.cons.injEq] at h
      exfalso
      apply hx
      simp [h.1]
    · simp only [List.cons_append, List.cons.injEq] at h
      obtain ⟨rfl, h2⟩ := h
      have hx1 : e ∉ xs := fun hm => hx (List.mem_cons_of_mem _ hm)
      obtain ⟨a, b, h3, h4, h5⟩ := ih pre1 h2 hx1
      exact ⟨a, b, h3, by simp [h4], h5⟩

theorem ListenAndDispatch_loop_event (env : Env) (reads : List ReadOutcome) (address : String)
    (opts : ServerOptions) (pre post : List Event) (e : Event) (he : e.inLoop = true)
    (h : (ListenAndDispatch env reads address opts).trace = pre ++ e :: post) :
    ∃ sock pre1 post1, (bindSocket env address opts).2 = Except.ok sock ∧
      (readLoop env sock (parseOpts opts) (List.replicate (bufferLen env opts) 0) reads).1 =
        pre1 ++ e :: post1 ∧
      post = post1 ++ (match firstReadErr reads with
        | none => []
        | some _ => [Event.Close sock]) := by
  have hsetup := bindSocket_inSetup env address opts
  rw [ListenAndDispatch_eq_serve] at h
  cases hb : (bindSocket env address opts).2 with
  | error err =>
    rw [hb, serve_error] at h
    have hmem : e ∈ (bindSocket env address opts).1 := by
      simp only at h
      rw [h]
      simp
    have := hsetup e hmem
    cases e <;> simp_all [Event.inLoop, Event.inSetup]
  | ok sock =>
    rw [hb, serve_ok_trace] at h
    have h1 : ((bindSocket env address opts).1 ++ [Event.make (bufferLen env opts)]) ++
        (readLoop env sock (parseOpts opts) (List.replicate (bufferLen env opts) 0) reads).1 ++
        (match firstReadErr reads with
          | none => []
          | some _ => [Event.Close sock]) = pre ++ e :: post := by
      rw [← h]
      simp
    have hx : e ∉ (bindSocket env address opts).1 ++ [Event.make (bufferLen env opts)] := by
      intro hm
      simp only [List.mem_append, List.mem_singleton] at hm
      rcases hm with hm | hm
      · have := hsetup e hm
        cases e <;> simp_all [Event.inLoop, Event.inSetup]
      · rw [hm] at he
        simp [Event.inLoop] at he
    have hz : e ∉ (match firstReadErr reads with
        | none => []
        | some _ => [Event.Close sock]) := by
      intro hm
      cases hf : firstReadErr reads <;> rw [hf] at hm <;> simp at hm
      rw [hm] at he
      simp [Event.inLoop] at he
    obtain ⟨pre1, post1, h2, -, h4⟩ := split_middle _ _ _ _ _ _ h1 hx hz
    exact ⟨sock, pre1, post1, rfl, h2, h4⟩

theorem projections_of_setup (l : List Event) (hl : ∀ e ∈ l, e.inSetup = true) :
    callsOf l = [] ∧ logsOf l = [] ∧ spawnedOf l = [] ∧ parsesOf l = [] ∧
      l.filter Event.isRead = [] := by
  induction l with
  | nil => exact ⟨rfl, rfl, rfl, rfl, rfl⟩
  | cons e l ih =>
    have h1 := hl e (by simp)
    have h2 := ih (fun x hx => hl x (List.mem_cons_of_mem _ hx))
    simp only [callsOf, logsOf, spawnedOf, parsesOf] at h2 ⊢
    cases e <;> simp_all [Event.inSetup, Event.isRead]

theorem readLoop_last (env : Env) (sock : net.UDPConn) (popts : ParseOpts)
    (buf : List Nat) (reads : List ReadOutcome) (err : GoError)
    (h : firstReadErr reads = some err) :
    ∃ t, (readLoop env sock popts buf reads).1 = t ++ [Event.ReadErr sock err] := by
  induction reads generalizing buf with
  | nil => simp [firstReadErr] at h
  | cons r rest ih =>
    cases r with
    | fail err1 =>
      simp only [firstReadErr, Option.some.injEq] at h
      subst h
      exact ⟨[], rfl⟩
    | datagram payload =>
      simp only [firstReadErr] at h
      obtain ⟨t, ht⟩ := ih (readInto buf payload) h
      simp only [readLoop]
      split
      · simp only [ht]
        exact ⟨_ :: _ :: _ :: t, rfl⟩
      · simp only [ht]
        exact ⟨_ :: _ :: _ :: t, rfl⟩

theorem payloadsRead_skip (f : List Nat → Option (List api.ValueList))
    (before after : List ReadOutcome) (D : List Nat) (hD : f D = none) :
    (payloadsRead (before ++ ReadOutcome.datagram D :: after)).filterMap f =
      (payloadsRead (before ++ after)).filterMap f := by
  induction before with
  | nil => simp [payloadsRead, List.filterMap_cons, hD]
  | cons r rest ih =>
    cases r with
    | fail err => rfl
    | datagram payload =>
      have e1 : payloadsRead (ReadOutcome.datagram payload :: rest ++
          ReadOutcome.datagram D :: after) =
          payload :: payloadsRead (rest ++ ReadOutcome.datagram D :: after) := rfl
      have e2 : payloadsRead (ReadOutcome.datagram payload :: rest ++ after) =
          payload :: payloadsRead (rest ++ after) := rfl
      rw [e1, e2, List.filterMap_cons, List.filterMap_cons, ih]

theorem payloadsRead_replicate (k : Nat) (payload : List Nat) :
    payloadsRead (List.replicate k (ReadOutcome.datagram payload)) = List.replicate k payload ∧
      firstReadErr (List.replicate k (ReadOutcome.datagram payload)) = none := by
  induction k with
  | zero => exact ⟨rfl, rfl⟩
  | succ k ih => simp [List.replicate_succ, payloadsRead, firstReadErr, ih]

theorem filterMap_replicate {α β : Type} (f : α → Option β) (a : α) (b : β) (k : Nat)
    (h : f a = some b) : (List.replicate k a).filterMap f = List.replicate k b := by
  induction k with
  | zero => rfl
  | succ k ih => simp [List.replicate_succ, List.filterMap_cons, h, ih]

theorem ListenAndDispatch_projections (env : Env) (reads : List ReadOutcome) (address : String)
    (opts : ServerOptions) (sock : net.UDPConn)
    (hb : (bindSocket env address opts).2 = Except.ok sock) :
    spawnedOf (ListenAndDispatch env reads address opts).trace =
      (payloadsRead reads).filterMap
        (decodedBatch env (parseOpts opts) (bufferLen env opts)) ∧
    logsOf (ListenAndDispatch env reads address opts).trace =
      (payloadsRead reads).filterMap
        (parseLogLine env (parseOpts opts) (bufferLen env opts)) ∧
    parsesOf (ListenAndDispatch env reads address opts).trace =
      (payloadsRead reads).map
        (fun payload => (payload.take (bufferLen env opts), parseOpts opts)) ∧
    ((ListenAndDispatch env reads address opts).trace.filter Event.isRead).length =
      (upToFirstErr reads).length := by
  have hs := projections_of_setup _ (bindSocket_inSetup env address opts)
  have h1 := readLoop_spawned env sock (parseOpts opts)
    (List.replicate (bufferLen env opts) 0) reads
  have h2 := readLoop_logs env sock (parseOpts opts)
    (List.replicate (bufferLen env opts) 0) reads
  have h3 := readLoop_parses env sock (parseOpts opts)
    (List.replicate (bufferLen env opts) 0) reads
  have h4 := readLoop_reads_count env sock (parseOpts opts)
    (List.replicate (bufferLen env opts) 0) reads
  rw [List.length_replicate] at h1 h2 h3
  rw [ListenAndDispatch_eq_serve, hb, serve_ok_trace]
  refine ⟨?_, ?_, ?_, ?_⟩
  · rw [spawnedOf_append, spawnedOf_append, hs.2.2.1]
    have : spawnedOf (Event.make (bufferLen env opts) ::
        (readLoop env sock (parseOpts opts) (List.replicate (bufferLen env opts) 0) reads).1) =
        spawnedOf
          (readLoop env sock (parseOpts opts) (List.replicate (bufferLen env opts) 0) reads).1 :=
      rfl
    rw [this, h1]
    cases firstReadErr reads <;> simp [spawnedOf]
  · rw [logsOf_append, logsOf_append, hs.2.1]
    have : logsOf (Event.make (bufferLen env opts) ::
        (readLoop env sock (parseOpts opts) (List.replicate (bufferLen env opts) 0) reads).1) =
        logsOf
          (readLoop env sock (parseOpts opts) (List.replicate (bufferLen env opts) 0) reads).1 :=
      rfl
    rw [this, h2]
    cases firstReadErr reads <;> simp [logsOf]
  · rw [parsesOf_append, parsesOf_append, hs.2.2.2.1]
    have : parsesOf (Event.make (bufferLen env opts) ::
        (readLoop env sock (parseOpts opts) (List.replicate (bufferLen env opts) 0) reads).1) =
        parsesOf
          (readLoop env sock (parseOpts opts) (List.replicate (bufferLen env opts) 0) reads).1 :=
      rfl
    rw [this, h3]
    cases firstReadErr reads <;> simp [parsesOf]
  · rw [List.filter_append, List.filter_append, hs.2.2.2.2]
    have : (Event.make (bufferLen env opts) ::
        (readLoop env sock (parseOpts opts) (List.replicate (bufferLen env opts) 0)
          reads).1).filter Event.isRead =
        (readLoop env sock (parseOpts opts) (List.replicate (bufferLen env opts) 0)
          reads).1.filter Event.isRead := rfl
    rw [this]
    cases firstReadErr reads <;> simp [h4, Event.isRead]

theorem ListenAndDispatch_calls (env : Env) (reads : List ReadOutcome) (address : String)
    (opts : ServerOptions) :
    callsOf (ListenAndDispatch env reads address opts).trace = [] := by
  have hs := projections_of_setup _ (bindSocket_inSetup env address opts)
  rw [ListenAndDispatch_eq_serve]
  cases hb : (bindSocket env address opts).2 with
  | error err => exact hs.1
  | ok sock =>
    rw [serve_ok_trace, callsOf_append, callsOf_append, hs.1]
    have : callsOf (Event.make (bufferLen env opts) ::
        (readLoop env sock (parseOpts opts) (List.replicate (bufferLen env opts) 0) reads).1) =
        callsOf
          (readLoop env sock (parseOpts opts) (List.replicate (bufferLen env opts) 0) reads).1 :=
      rfl
    rw [this, readLoop_calls]
    cases firstReadErr reads <;> simp [callsOf]

/-! ### The goroutines -/

theorem eventsBy_append (g : Goroutine) (a b : List (Goroutine × Event)) :
    eventsBy g (a ++ b) = eventsBy g a ++ eventsBy g b := by
  simp [eventsBy, List.filterMap_append]

theorem eventsBy_map_same (g : Goroutine) (l : List Event) :
    eventsBy g (l.map (fun e => (g, e))) = l := by
  induction l with
  | nil => rfl
  | cons e l ih =>
    simp only [eventsBy, List.map_cons, List.filterMap_cons] at ih ⊢
    simp [ih]

theorem eventsBy_map_other (g h : Goroutine) (hne : h ≠ g) (l : List Event) :
    eventsBy g (l.map (fun e => (h, e))) = [] := by
  induction l with
  | nil => rfl
  | cons e l ih =>
    simp only [eventsBy, List.map_cons, List.filterMap_cons] at ih ⊢
    simp [ih, hne]

theorem run_cons {σ : Type} (d : api.Dispatcher σ) (sys : System σ) (g : Goroutine)
    (sched : List Goroutine) :
    System.run d sys (g :: sched) = System.run d (System.step d sys g) sched := rfl

theorem run_reader_only {σ : Type} (d : api.Dispatcher σ) (t : List Event)
    (sys : System σ) (h : sys.pending = t) :
    System.run d sys (List.replicate t.length Goroutine.reader) =
      { pending := [], tasks := sys.tasks ++ spawnedOf t, sink := sys.sink,
        trace := sys.trace ++ t.map (fun e => (Goroutine.reader, e)) } := by
  induction t generalizing sys with
  | nil =>
    cases sys
    simp_all [System.run, spawnedOf]
  | cons e es ih =>
    simp only [List.length_cons, List.replicate_succ, run_cons]
    have hstep : System.step d sys Goroutine.reader =
        { pending := es, tasks := sys.tasks ++ spawnedOf [e], sink := sys.sink,
          trace := sys.trace ++ [(Goroutine.reader, e)] } := by
      simp [System.step, h]
    rw [hstep, ih _ rfl]
    have : spawnedOf (e :: es) = spawnedOf [e] ++ spawnedOf es := by
      rw [← spawnedOf_append]
      rfl
    simp [this]

theorem step_reader_events {σ : Type} (d : api.Dispatcher σ) (sys : System σ) (g : Goroutine) :
    eventsBy Goroutine.reader (System.step d sys g).trace ++ (System.step d sys g).pending =
      eventsBy Goroutine.reader sys.trace ++ sys.pending := by
  cases g with
  | reader =>
    simp only [System.step]
    split
    · rfl
    · rename_i e es hp
      rw [hp, eventsBy_append]
      simp [eventsBy]
  | task i =>
    simp only [System.step]
    split
    · rw [eventsBy_append, eventsBy_map_other _ _ (by simp)]
      simp
    · rfl

theorem run_reader_events {σ : Type} (d : api.Dispatcher σ) (sys : System σ)
    (sched : List Goroutine) :
    eventsBy Goroutine.reader (System.run d sys sched).trace ++ (System.run d sys sched).pending =
      eventsBy Goroutine.reader sys.trace ++ sys.pending := by
  induction sched generalizing sys with
  | nil => rfl
  | cons g sched ih => rw [run_cons, ih, step_reader_events]

theorem step_tasks {σ : Type} (d : api.Dispatcher σ) (sys : System σ) (g : Goroutine)
    (hlen : sys.tasks.length = (spawnedOf (eventsBy Goroutine.reader sys.trace)).length)
    (hinv : ∀ i, callsOf (eventsBy (Goroutine.task i) sys.trace) ++ (sys.tasks[i]?).getD [] =
      ((spawnedOf (eventsBy Goroutine.reader sys.trace))[i]?).getD []) :
    (System.step d sys g).tasks.length =
      (spawnedOf (eventsBy Goroutine.reader (System.step d sys g).trace)).length ∧
    ∀ i, callsOf (eventsBy (Goroutine.task i) (System.step d sys g).trace) ++
        ((System.step d sys g).tasks[i]?).getD [] =
      ((spawnedOf (eventsBy Goroutine.reader (System.step d sys g).trace))[i]?).getD [] := by
  cases g with
  | reader =>
    simp only [System.step]
    split
    · exact ⟨hlen, hinv⟩
    · rename_i e es hp
      have hr : eventsBy Goroutine.reader (sys.trace ++ [(Goroutine.reader, e)]) =
          eventsBy Goroutine.reader sys.trace ++ [e] := by
        rw [eventsBy_append]
        simp [eventsBy]
      have ht : ∀ i, eventsBy (Goroutine.task i) (sys.trace ++ [(Goroutine.reader, e)]) =
          eventsBy (Goroutine.task i) sys.trace := by
        intro i
        rw [eventsBy_append]
        simp [eventsBy]
      simp only [hr, ht, spawnedOf_append, List.length_append]
      refine ⟨by rw [hlen], ?_⟩
      intro i
      by_cases hi : i < sys.tasks.length
      · rw [List.getElem?_append_left hi, List.getElem?_append_left (hlen ▸ hi)]
        exact hinv i
      · have hi1 : sys.tasks.length ≤ i := by omega
        have hi2 : (spawnedOf (eventsBy Goroutine.reader sys.trace)).length ≤ i := hlen ▸ hi1
        have h0 := hinv i
        rw [List.getElem?_eq_none hi1, List.getElem?_eq_none hi2] at h0
        simp only [Option.getD_none, List.append_nil] at h0
        rw [List.getElem?_append_right hi1, List.getElem?_append_right hi2, h0, hlen]
        rfl
  | task j =>
    simp only [System.step]
    split
    · rename_i vl rest hj
      have hr : eventsBy Goroutine.reader
          (sys.trace ++ (dispatchOne d sys.sink vl).1.map (fun e => (Goroutine.task j, e))) =
          eventsBy Goroutine.reader sys.trace := by
        rw [eventsBy_append, eventsBy_map_other _ _ (by simp)]
        simp
      simp only [hr, List.length_set]
      refine ⟨hlen, ?_⟩
      intro i
      by_cases hij : i = j
      · subst hij
        rw [eventsBy_append, eventsBy_map_same, callsOf_append, callsOf_dispatchOne]
        have hlt : i < sys.tasks.length := by
          by_contra hge
          rw [List.getElem?_eq_none (by omega)] at hj
          simp at hj
        have h0 := hinv i
        rw [hj] at h0
        rw [← h0]
        simp [List.getElem?_set_self, hlt]
      · have hne : Goroutine.task j ≠ Goroutine.task i := by
          intro h
          injection h with h
          exact hij h.symm
        rw [eventsBy_append, eventsBy_map_other _ _ hne, List.append_nil,
          List.getElem?_set_ne (Ne.symm hij)]
        exact hinv i
    · exact ⟨hlen, hinv⟩

theorem run_tasks {σ : Type} (d : api.Dispatcher σ) (sys : System σ) (sched : List Goroutine)
    (hlen : sys.tasks.length = (spawnedOf (eventsBy Goroutine.reader sys.trace)).length)
    (hinv : ∀ i, callsOf (eventsBy (Goroutine.task i) sys.trace) ++ (sys.tasks[i]?).getD [] =
      ((spawnedOf (eventsBy Goroutine.reader sys.trace))[i]?).getD []) :
    (System.run d sys sched).tasks.length =
      (spawnedOf (eventsBy Goroutine.reader (System.run d sys sched).trace)).length ∧
    ∀ i, callsOf (eventsBy (Goroutine.task i) (System.run d sys sched).trace) ++
        ((System.run d sys sched).tasks[i]?).getD [] =
      ((spawnedOf (eventsBy Goroutine.reader (System.run d sys sched).trace))[i]?).getD [] := by
  induction sched generalizing sys with
  | nil => exact ⟨hlen, hinv⟩
  | cons g sched ih =>
    rw [run_cons]
    have h := step_tasks d sys g hlen hinv
    exact ih _ h.1 h.2

/-! ### The claims on the read loop -/

theorem mem_parsesOf (t : List Event) (b : List Nat) (popts : ParseOpts)
    (h : Event.Parse b popts ∈ t) : (b, popts) ∈ parsesOf t := by
  unfold parsesOf
  rw [List.mem_filterMap]
  exact ⟨_, h, rfl⟩

theorem mem_callsOf (t : List Event) (vl : api.ValueList)
    (h : Event.Dispatch vl ∈ t) : vl ∈ callsOf t := by
  unfold callsOf
  rw [List.mem_filterMap]
  exact ⟨_, h, rfl⟩

theorem mem_eventsBy (t : List (Goroutine × Event)) (g : Goroutine) (e : Event)
    (h : (g, e) ∈ t) : e ∈ eventsBy g t := by
  unfold eventsBy
  rw [List.mem_filterMap]
  exact ⟨_, h, by simp⟩

/-- C4: every successful read is followed at once by the `Parse` of that
turn, and what `Parse` receives is `buf[:n]`: the first `n` bytes of the
buffer as the read left it (`n` bytes, `n` at most the length of the
buffer), with options whose `PasswordLookup` is the one of the
`ServerOptions`; every `Parse` of the run has those options. -/
theorem Parse_receives_bytes_read (env : Env) (reads : List ReadOutcome) (address : String)
    (opts : ServerOptions) (pre post : List Event) (s : net.UDPConn) (buf : List Nat) (n : Nat)
    (h : (ListenAndDispatch env reads address opts).trace =
      pre ++ Event.ReadOk s buf n :: post) :
    n ≤ buf.length ∧ (buf.take n).length = n ∧
    (∃ post1, post =
      Event.Parse (buf.take n) { PasswordLookup := opts.PasswordLookup } :: post1) ∧
    (∀ b popts, Event.Parse b popts ∈ (ListenAndDispatch env reads address opts).trace →
      popts.PasswordLookup = opts.PasswordLookup) := by
  obtain ⟨sock, pre1, post1, hb, hrl, hpost⟩ :=
    ListenAndDispatch_loop_event env reads address opts pre post (Event.ReadOk s buf n) rfl h
  obtain ⟨-, -, hn, post2, hp2⟩ := readLoop_after_ReadOk _ _ _ _ _ _ _ _ _ _ hrl
  refine ⟨hn, ?_, ?_, ?_⟩
  · rw [List.length_take]
    omega
  · rw [hpost, hp2]
    exact ⟨_, rfl⟩
  · intro b popts hmem
    have h1 := mem_parsesOf _ _ _ hmem
    rw [(ListenAndDispatch_projections env reads address opts sock hb).2.2.1] at h1
    rw [List.mem_map] at h1
    obtain ⟨payload, -, hp⟩ := h1
    simp only [Prod.mk.injEq] at hp
    rw [← hp.2]
    rfl

/-- C4 at a concrete input: a datagram of two bytes read into a buffer of
four: `Parse` receives the two bytes, not the four. -/
theorem Parse_receives_bytes_read_witness :
    ∃ post1,
      [Event.Parse [0, 9] { PasswordLookup := some { id := 9 } },
        Event.go [Example.vl1, Example.vl2, Example.vl3]] =
      Event.Parse ([0, 9, 0, 0].take 2)
        { PasswordLookup := Example.opts4.PasswordLookup } :: post1 :=
  (Parse_receives_bytes_read Example.env [ReadOutcome.datagram [0, 9]] "127.0.0.1:25826"
    Example.opts4
    [Event.ResolveUDPAddr "127.0.0.1:25826", Event.ListenUDP Example.ucastAddr, Event.make 4]
    [Event.Parse [0, 9] { PasswordLookup := some { id := 9 } },
      Event.go [Example.vl1, Example.vl2, Example.vl3]]
    { fd := 3 } [0, 9, 0, 0] 2 (by decide)).2.2.1

/-- C2: after a successful bind, for every sequence of read outcomes, with
`payloadsRead reads` the datagrams read: every datagram read is given to
`Parse` (its first bytes, as many as the buffer holds) with the same
options; the batches spawned are the `Parse` results of the datagrams whose
`Parse` returned no error, in arrival order, and the log lines are those of
the datagrams whose `Parse` returned an error, one each: a datagram yields
a line exactly when it yields no batch.  Every read is made on the same
socket with a buffer of the same length.  So taking a datagram that fails to
decode out of the sequence changes nothing of what is spawned. -/
theorem decode_failure_keeps_loop (env : Env) (reads : List ReadOutcome) (address : String)
    (opts : ServerOptions) (sock : net.UDPConn)
    (hb : (bindSocket env address opts).2 = Except.ok sock) :
    spawnedOf (ListenAndDispatch env reads address opts).trace =
      (payloadsRead reads).filterMap
        (decodedBatch env (parseOpts opts) (bufferLen env opts)) ∧
    logsOf (ListenAndDispatch env reads address opts).trace =
      (payloadsRead reads).filterMap
        (parseLogLine env (parseOpts opts) (bufferLen env opts)) ∧
    parsesOf (ListenAndDispatch env reads address opts).trace =
      (payloadsRead reads).map
        (fun payload => (payload.take (bufferLen env opts), parseOpts opts)) ∧
    (∀ payload,
      (decodedBatch env (parseOpts opts) (bufferLen env opts) payload = none ↔
        ∃ err, (env.Parse (payload.take (bufferLen env opts)) (parseOpts opts)).2 = some err ∧
          parseLogLine env (parseOpts opts) (bufferLen env opts) payload =
            some ("error while parsing: " ++ err.msg)) ∧
      (∀ valueLists,
        decodedBatch env (parseOpts opts) (bufferLen env opts) payload = some valueLists ↔
          env.Parse (payload.take (bufferLen env opts)) (parseOpts opts) =
            (valueLists, none))) ∧
    (∀ s buf n, Event.ReadOk s buf n ∈ (ListenAndDispatch env reads address opts).trace →
      s = sock ∧ buf.length = bufferLen env opts) ∧
    (∀ before after D,
      decodedBatch env (parseOpts opts) (bufferLen env opts) D = none →
      spawnedOf (ListenAndDispatch env (before ++ ReadOutcome.datagram D :: after)
          address opts).trace =
        spawnedOf (ListenAndDispatch env (before ++ after) address opts).trace) := by
  have hp := ListenAndDispatch_projections env reads address opts sock hb
  refine ⟨hp.1, hp.2.1, hp.2.2.1, ?_, ?_, ?_⟩
  · intro payload
    unfold decodedBatch parseLogLine
    rcases hparse : env.Parse (payload.take (bufferLen env opts)) (parseOpts opts)
      with ⟨vls, _ | err⟩
    · simp
    · simp
  · intro s buf n hmem
    obtain ⟨pre, post, hsplit⟩ := List.append_of_mem hmem
    obtain ⟨sock1, pre1, post1, hb1, hrl, -⟩ :=
      ListenAndDispatch_loop_event env reads address opts pre post (Event.ReadOk s buf n) rfl
        hsplit
    rw [hb] at hb1
    injection hb1 with hb1
    subst hb1
    obtain ⟨h1, h2, -, -⟩ := readLoop_after_ReadOk _ _ _ _ _ _ _ _ _ _ hrl
    exact ⟨h1, by simpa using h2⟩
  · intro before after D hD
    rw [(ListenAndDispatch_projections env _ address opts sock hb).1,
      (ListenAndDispatch_projections env _ address opts sock hb).1]
    exact payloadsRead_skip _ _ _ _ hD

/-- C2 at a concrete input, scenario B of the specification: a corrupt
datagram, then a valid one: one batch is spawned, that of the valid one. -/
theorem decode_failure_keeps_loop_witness :
    spawnedOf (ListenAndDispatch Example.env
        [ReadOutcome.datagram [7, 7], ReadOutcome.datagram [0]]
        "127.0.0.1:25826" Example.opts4).trace =
      [[Example.vl1, Example.vl2, Example.vl3]] ∧
    logsOf (ListenAndDispatch Example.env
        [ReadOutcome.datagram [7, 7], ReadOutcome.datagram [0]]
        "127.0.0.1:25826" Example.opts4).trace =
      ["error while parsing: invalid data"] :=
  have h := decode_failure_keeps_loop Example.env
    [ReadOutcome.datagram [7, 7], ReadOutcome.datagram [0]] "127.0.0.1:25826" Example.opts4
    { fd := 3 } rfl
  ⟨h.1.trans (by decide), h.2.1.trans (by decide)⟩

/-- C3: `ListenAndDispatch` has returned exactly when resolution, lookup or
bind failed or a read failed, and it then returns the error of that step,
never nil: the error of `ResolveUDPAddr`, of `InterfaceByName`, of
`ListenMulticastUDP` or `ListenUDP`, or of the first failing read; with a
socket bound and no failing read it is blocked in a read.  The decoder has
no part in it: with any other `Parse` the status is the same.  Nothing
happens after the first failing read: the run is that of the read outcomes
up to it, there are as many reads as those, and the run ends with that read
and the `Close`.  The sink has no part in it either: the reader makes no
`Dispatch` call, and under every sink and every schedule of the goroutines
the events of the reader are those of `ListenAndDispatch`. -/
theorem returns_only_fatal_error {σ : Type} (env : Env) (reads : List ReadOutcome)
    (address : String) (opts : ServerOptions) (d : api.Dispatcher σ) (s0 : σ)
    (sched : List Goroutine) :
    ((∃ r, (ListenAndDispatch env reads address opts).status = Status.returned r) ↔
      ((∃ err, (bindSocket env address opts).2 = Except.error err) ∨
        ∃ err, firstReadErr reads = some err)) ∧
    (ListenAndDispatch env reads address opts).status ≠ Status.returned none ∧
    (∀ err, (bindSocket env address opts).2 = Except.error err →
      (ListenAndDispatch env reads address opts).status = Status.returned (some err)) ∧
    (∀ sock err, (bindSocket env address opts).2 = Except.ok sock →
      firstReadErr reads = some err →
      (ListenAndDispatch env reads address opts).status = Status.returned (some err) ∧
      ∃ t, (ListenAndDispatch env reads address opts).trace =
        t ++ [Event.ReadErr sock err, Event.Close sock]) ∧
    (∀ sock, (bindSocket env address opts).2 = Except.ok sock →
      (firstReadErr reads = none →
        (ListenAndDispatch env reads address opts).status = Status.reading) ∧
      ((ListenAndDispatch env reads address opts).trace.filter Event.isRead).length =
        (upToFirstErr reads).length) ∧
    (∀ err, env.ResolveUDPAddr address = Except.error err →
      (ListenAndDispatch env reads address opts).status = Status.returned (some err)) ∧
    (∀ laddr err, env.ResolveUDPAddr address = Except.ok laddr →
      env.IsMulticast laddr = true → opts.Interface ≠ "" →
      env.InterfaceByName opts.Interface = Except.error err →
      (ListenAndDispatch env reads address opts).status = Status.returned (some err)) ∧
    (∀ laddr ifi err, env.ResolveUDPAddr address = Except.ok laddr →
      env.IsMulticast laddr = true → opts.Interface ≠ "" →
      env.InterfaceByName opts.Interface = Except.ok ifi →
      env.ListenMulticastUDP (some ifi) laddr = Except.error err →
      (ListenAndDispatch env reads address opts).status = Status.returned (some err)) ∧
    (∀ laddr err, env.ResolveUDPAddr address = Except.ok laddr →
      env.IsMulticast laddr = true → opts.Interface = "" →
      env.ListenMulticastUDP none laddr = Except.error err →
      (ListenAndDispatch env reads address opts).status = Status.returned (some err)) ∧
    (∀ laddr err, env.ResolveUDPAddr address = Except.ok laddr →
      env.IsMulticast laddr = false →
      env.ListenUDP laddr = Except.error err →
      (ListenAndDispatch env reads address opts).status = Status.returned (some err)) ∧
    (∀ parse, (ListenAndDispatch { env with Parse := parse } reads address opts).status =
      (ListenAndDispatch env reads address opts).status) ∧
    ListenAndDispatch env (upToFirstErr reads) address opts =
      ListenAndDispatch env reads address opts ∧
    callsOf (ListenAndDispatch env reads address opts).trace = [] ∧
    eventsBy Goroutine.reader
        (System.run d (System.init (ListenAndDispatch env reads address opts).trace s0)
          sched).trace ++
      (System.run d (System.init (ListenAndDispatch env reads address opts).trace s0)
          sched).pending =
      (ListenAndDispatch env reads address opts).trace := by
  have hstatus : (ListenAndDispatch env reads address opts).status =
      match (bindSocket env address opts).2 with
      | Except.error err => Status.returned (some err)
      | Except.ok _ =>
        match firstReadErr reads with
        | none => Status.reading
        | some err => Status.returned (some err) := by
    rw [ListenAndDispatch_eq_serve]
    cases hb : (bindSocket env address opts).2 with
    | error err => rfl
    | ok sock => rw [serve_ok_status]
  refine ⟨?_, ?_, ?_, ?_, ?_, ?_, ?_, ?_, ?_, ?_, ?_, ?_, ?_, ?_⟩
  · rw [hstatus]
    cases hb : (bindSocket env address opts).2 with
    | error err => simp
    | ok sock => cases hf : firstReadErr reads <;> simp
  · rw [hstatus]
    cases hb : (bindSocket env address opts).2 with
    | error err => simp
    | ok sock => cases hf : firstReadErr reads <;> simp
  · intro err hb
    rw [hstatus, hb]
  · intro sock err hb hf
    refine ⟨by rw [hstatus, hb, hf], ?_⟩
    obtain ⟨t, ht⟩ := readLoop_last env sock (parseOpts opts)
      (List.replicate (bufferLen env opts) 0) reads err hf
    rw [ListenAndDispatch_eq_serve, hb, serve_ok_trace, ht, hf]
    exact ⟨(bindSocket env address opts).1 ++ Event.make (bufferLen env opts) :: t, by simp⟩
  · intro sock hb
    refine ⟨fun hf => by rw [hstatus, hb, hf], ?_⟩
    exact (ListenAndDispatch_projections env reads address opts sock hb).2.2.2
  · intro err hr
    unfold ListenAndDispatch
    rw [hr]
  · intro laddr err hr hm hi hl
    unfold ListenAndDispatch
    rw [hr]
    simp [hm, hi, hl]
  · intro laddr ifi err hr hm hi hl hj
    unfold ListenAndDispatch
    rw [hr]
    simp [hm, hi, hl, hj, serve]
  · intro laddr err hr hm hi hj
    unfold ListenAndDispatch
    rw [hr]
    simp [hm, hi, hj, serve]
  · intro laddr err hr hm hj
    unfold ListenAndDispatch
    rw [hr]
    simp [hm, hj, serve]
  · intro parse
    rw [ListenAndDispatch_eq_serve, ListenAndDispatch_eq_serve]
    have hbs : bindSocket { env with Parse := parse } address opts =
        bindSocket env address opts := rfl
    rw [hbs]
    cases hb : (bindSocket env address opts).2 with
    | error err => rfl
    | ok sock => rw [serve_ok_status, serve_ok_status]
  · rw [ListenAndDispatch_eq_serve, ListenAndDispatch_eq_serve]
    cases hb : (bindSocket env address opts).2 with
    | error err => rfl
    | ok sock =>
      unfold serve
      simp only [readLoop_upToFirstErr]
  · exact ListenAndDispatch_calls env reads address opts
  · rw [run_reader_events]
    rfl

/-- C3 at a concrete input, scenario C of the specification: the socket is
closed under the blocked read after a corrupt datagram: the function
returns the error of the read, not that of `Parse`. -/
theorem returns_only_fatal_error_witness :
    (ListenAndDispatch Example.env
        [ReadOutcome.datagram [7], ReadOutcome.fail Example.closedErr,
          ReadOutcome.datagram [0]]
        "127.0.0.1:25826" Example.opts4).status =
      Status.returned (some Example.closedErr) :=
  ((returns_only_fatal_error Example.env
    [ReadOutcome.datagram [7], ReadOutcome.fail Example.closedErr, ReadOutcome.datagram [0]]
    "127.0.0.1:25826" Example.opts4 Example.refuseAll () []).2.2.2.1
      { fd := 3 } Example.closedErr rfl rfl).1

/-- C10: the reader makes no `Dispatch` call.  Run alone, with no step of
any delivery goroutine (the sink may block for ever), it makes all its
events: every batch it spawned is then a goroutine in flight with all its
records still to deliver and the sink untouched.  Under every schedule,
every `Dispatch` call is made by a delivery goroutine the reader has
spawned, on a record of the batch that goroutine was given.  In the
reader, a `go` is followed at once by a read, or it is the last event and
the reader is blocked in a read.  One goroutine is spawned for each
datagram that decodes, and their number is not bounded: `k` datagrams that
decode leave `k` goroutines and the reader in its next read. -/
theorem reader_never_waits_for_delivery {σ : Type} (env : Env) (reads : List ReadOutcome)
    (address : String) (opts : ServerOptions) (d : api.Dispatcher σ) (s0 : σ)
    (sched : List Goroutine) :
    callsOf (ListenAndDispatch env reads address opts).trace = [] ∧
    System.run d (System.init (ListenAndDispatch env reads address opts).trace s0)
        (List.replicate (ListenAndDispatch env reads address opts).trace.length
          Goroutine.reader) =
      { pending := [], tasks := spawnedOf (ListenAndDispatch env reads address opts).trace,
        sink := s0,
        trace := (ListenAndDispatch env reads address opts).trace.map
          (fun e => (Goroutine.reader, e)) } ∧
    (∀ g vl, (g, Event.Dispatch vl) ∈
        (System.run d (System.init (ListenAndDispatch env reads address opts).trace s0)
          sched).trace →
      ∃ i batch, g = Goroutine.task i ∧
        (spawnedOf (eventsBy Goroutine.reader
          (System.run d (System.init (ListenAndDispatch env reads address opts).trace s0)
            sched).trace))[i]? = some batch ∧
        vl ∈ batch) ∧
    (∀ pre vls post,
      (ListenAndDispatch env reads address opts).trace = pre ++ Event.go vls :: post →
      (post = [] ∧ (ListenAndDispatch env reads address opts).status = Status.reading) ∨
        ∃ e post1, post = e :: post1 ∧ e.isRead = true) ∧
    (∀ sock, (bindSocket env address opts).2 = Except.ok sock →
      spawnedOf (ListenAndDispatch env reads address opts).trace =
        (payloadsRead reads).filterMap
          (decodedBatch env (parseOpts opts) (bufferLen env opts))) ∧
    (∀ sock payload valueLists k, (bindSocket env address opts).2 = Except.ok sock →
      env.Parse (payload.take (bufferLen env opts)) (parseOpts opts) = (valueLists, none) →
      spawnedOf (ListenAndDispatch env (List.replicate k (ReadOutcome.datagram payload))
          address opts).trace = List.replicate k valueLists ∧
      (ListenAndDispatch env (List.replicate k (ReadOutcome.datagram payload))
          address opts).status = Status.reading) := by
  have hcalls := ListenAndDispatch_calls env reads address opts
  refine ⟨hcalls, ?_, ?_, ?_, ?_, ?_⟩
  · rw [run_reader_only d (ListenAndDispatch env reads address opts).trace
      (System.init (ListenAndDispatch env reads address opts).trace s0) rfl]
    simp [System.init]
  · intro g vl hmem
    have hre := run_reader_events d
      (System.init (ListenAndDispatch env reads address opts).trace s0) sched
    have hta := run_tasks d
      (System.init (ListenAndDispatch env reads address opts).trace s0) sched rfl
      (by intro i; simp [System.init, eventsBy, callsOf, spawnedOf])
    have hev := mem_eventsBy _ _ _ hmem
    cases g with
    | reader =>
      exfalso
      have hin : Event.Dispatch vl ∈ (ListenAndDispatch env reads address opts).trace := by
        have : Event.Dispatch vl ∈
            eventsBy Goroutine.reader
              (System.run d (System.init (ListenAndDispatch env reads address opts).trace s0)
                sched).trace ++
            (System.run d (System.init (ListenAndDispatch env reads address opts).trace s0)
                sched).pending := List.mem_append_left _ hev
        rw [hre] at this
        simpa [System.init, eventsBy] using this
      have := mem_callsOf _ _ hin
      rw [hcalls] at this
      simp at this
    | task i =>
      have hvl := mem_callsOf _ _ hev
      have hi := hta.2 i
      have hvl2 : vl ∈ ((spawnedOf (eventsBy Goroutine.reader
          (System.run d (System.init (ListenAndDispatch env reads address opts).trace s0)
            sched).trace))[i]?).getD [] := by
        rw [← hi]
        exact List.mem_append_left _ hvl
      cases hsp : (spawnedOf (eventsBy Goroutine.reader
          (System.run d (System.init (ListenAndDispatch env reads address opts).trace s0)
            sched).trace))[i]? with
      | none =>
        rw [hsp] at hvl2
        simp at hvl2
      | some batch =>
        rw [hsp] at hvl2
        exact ⟨i, batch, rfl, hsp, by simpa using hvl2⟩
  · intro pre vls post h
    obtain ⟨sock, pre1, post1, hb, hrl, hpost⟩ :=
      ListenAndDispatch_loop_event env reads address opts pre post (Event.go vls) rfl h
    rcases readLoop_after_go _ _ _ _ _ _ _ _ hrl with ⟨h1, h2⟩ | ⟨e, post2, h1, h2⟩
    · left
      rw [readLoop_result] at h2
      rw [h2, h1] at hpost
      refine ⟨by simpa using hpost, ?_⟩
      rw [ListenAndDispatch_eq_serve, hb, serve_ok_status, h2]
    · right
      rw [h1] at hpost
      exact ⟨e, _, hpost, h2⟩
  · intro sock hb
    exact (ListenAndDispatch_projections env reads address opts sock hb).1
  · intro sock payload valueLists k hb hparse
    have hrep := payloadsRead_replicate k payload
    refine ⟨?_, ?_⟩
    · rw [(ListenAndDispatch_projections env _ address opts sock hb).1, hrep.1]
      apply filterMap_replicate
      simp [decodedBatch, hparse]
    · rw [ListenAndDispatch_eq_serve, hb, serve_ok_status, hrep.2]

/-- C10 at a concrete input: three datagrams that decode, a sink that is
never run: three delivery goroutines are in flight and the reader is
blocked in its fourth read. -/
theorem reader_never_waits_for_delivery_witness :
    spawnedOf (ListenAndDispatch Example.env
        (List.replicate 3 (ReadOutcome.datagram [0])) "127.0.0.1:25826"
        Example.opts4).trace =
      List.replicate 3 [Example.vl1, Example.vl2, Example.vl3] ∧
    (ListenAndDispatch Example.env
        (List.replicate 3 (ReadOutcome.datagram [0])) "127.0.0.1:25826"
        Example.opts4).status = Status.reading :=
  (reader_never_waits_for_delivery Example.env [] "127.0.0.1:25826" Example.opts4
    Example.refuseAll () []).2.2.2.2.2 { fd := 3 } [0] [Example.vl1, Example.vl2, Example.vl3]
      3 rfl rfl

end network
